import Mathlib

/-!
Shallow embedding of the merchant-registration form component
(src/components/new-merchant-form.tsx) of CMUBA/Arcadia-Business.

Modelling conventions:
* Component state (location, address, images, error, isProcessing) is a record;
  each event handler is a pure function from the pre-state (plus its event
  parameters and oracles for the external asynchronous services) to the
  post-state.  Handlers additionally report whether they cleared the file
  input (the assignment e.target.value = "").
* A null e.target.files is Option.none; a FileList is a List of records
  carrying the two fields the handler reads (name, size).
* Per-file compression (compressImage) is an oracle JsFile -> Except Unit
  String: Except.ok is a resolved promise carrying the data URL, Except.error
  a rejected one.  Promise.all over the batch is promiseAll, which fails as
  soon as any member fails and otherwise returns all values in order.
* The size re-check computes dataUrl.split(',')[1].length * 0.75 and compares
  it with MAX_UPLOAD_SIZE.  For payload lengths below 2^50 the double products
  n * 0.75 are exact, so the comparison n * 0.75 > MAX_UPLOAD_SIZE is
  equivalent to the integer comparison n * 3 > MAX_UPLOAD_SIZE * 4, which is
  how it is embedded.  When the string has no comma, split(',')[1] is
  undefined and reading .length throws; that is the Except.error branch of
  someTooLarge, caught by the surrounding try/catch.
* Math.round on a nonnegative quotient n / d is floor(n/d + 1/2); for the
  dimension ranges involved the double computation (height * 1024) / width is
  within half an ulp of the exact rational, which is farther than that from
  every half-integer it does not hit exactly, so round-half-up on the exact
  rational (roundDiv) is the faithful integer model.
* The geocoder oracle returns Except.error for a rejected geocode call and
  Except.ok with the results array otherwise.
-/

namespace NewMerchantForm

/-- Per-file raw size ceiling from the source: 5 * 1024 * 1024 bytes. -/
def MAX_IMAGE_SIZE : Nat := 5 * 1024 * 1024

/-- Post-compression effective-size ceiling from the source: 1024 * 1024 bytes. -/
def MAX_UPLOAD_SIZE : Nat := 1024 * 1024

/-- A selected file, carrying the two fields handleImageUpload reads. -/
structure JsFile where
  name : String
  size : Nat
deriving DecidableEq

/-- A latitude/longitude pair; coordinates are embedded as rationals. -/
structure Coord where
  lat : Rat
  lng : Rat
deriving DecidableEq

/-- Default location constant CHIANG_MAI from the source. -/
def CHIANG_MAI : Coord := ⟨18.7883, 98.9853⟩

/-- The component state the claims are about: location, address, images,
error and isProcessing, exactly the useState cells of the component (the
geocoder cell is passed to handlers as a separate availability flag). -/
structure FormState where
  location : Coord
  address : String
  images : List String
  error : Option String
  isProcessing : Bool
deriving DecidableEq

/-- Math.round (round half up) of the exact quotient n / d for d positive:
floor of n / d + 1 / 2, computed in integer arithmetic. -/
def roundDiv (n d : Nat) : Nat := (2 * n + d) / (2 * d)

/-- The dimension computation of compressImage: keep (width, height) unless
the longer side exceeds 1024, in which case the longer side becomes 1024 and
the other side Math.round(other * 1024 / longer). -/
def compressDimensions (width height : Nat) : Nat × Nat :=
  if width > height then
    if width > 1024 then (1024, roundDiv (height * 1024) width) else (width, height)
  else
    if height > 1024 then (roundDiv (width * 1024) height, 1024) else (width, height)

/-- Characters strictly before the next comma: one segment of split(','). -/
def untilComma : List Char → List Char
  | [] => []
  | c :: cs => if c = ',' then [] else c :: untilComma cs

/-- Characters strictly between the first comma and the comma after it, when
the list has a comma at all: dataUrl.split(',')[1], with none for the
undefined of an index past the end. -/
def afterFirstComma : List Char → Option (List Char)
  | [] => none
  | c :: cs => if c = ',' then some (untilComma cs) else afterFirstComma cs

/-- Length of the base64 payload of a data URL: dataUrl.split(',')[1].length,
none when the URL has no comma (reading .length of undefined throws). -/
def base64PayloadLen (dataUrl : String) : Option Nat :=
  (afterFirstComma dataUrl.toList).map List.length

/-- The per-result size test of the re-check: effective decoded size
base64Length * 0.75 exceeds MAX_UPLOAD_SIZE, embedded exactly as
base64Length * 3 > MAX_UPLOAD_SIZE * 4; false when the string has no comma
(that case throws instead, see someTooLarge). -/
def tooLargeB (u : String) : Bool :=
  match base64PayloadLen u with
  | some n => decide (n * 3 > MAX_UPLOAD_SIZE * 4)
  | none => false

/-- Effective decoded size within the ceiling: the string has a comma and its
base64 payload length n satisfies n * 0.75 <= MAX_UPLOAD_SIZE, embedded
exactly as n * 3 <= MAX_UPLOAD_SIZE * 4. -/
def effSizeOkB (u : String) : Bool :=
  match base64PayloadLen u with
  | some n => decide (n * 3 ≤ MAX_UPLOAD_SIZE * 4)
  | none => false

/-- compressedImages.some(callback) for the size re-check: short-circuits at
the first oversized result; the callback throws (Except.error) when a data
URL has no comma, because split(',')[1] is undefined there. -/
def someTooLarge : List String → Except Unit Bool
  | [] => Except.ok false
  | u :: us =>
    match base64PayloadLen u with
    | none => Except.error ()
    | some n =>
      if n * 3 > MAX_UPLOAD_SIZE * 4 then Except.ok true else someTooLarge us

/-- Promise.all over the per-file compression promises: rejected as soon as
any member is rejected, otherwise all values in original order. -/
def promiseAll : List (Except Unit String) → Except Unit (List String)
  | [] => Except.ok []
  | r :: rs =>
    match r with
    | Except.error e => Except.error e
    | Except.ok v =>
      match promiseAll rs with
      | Except.error e => Except.error e
      | Except.ok vs => Except.ok (v :: vs)

/-- The oversized-batch error text: names every file whose size exceeds
MAX_IMAGE_SIZE, joined with ", " (MAX_IMAGE_SIZE / 1024 / 1024 = 5). -/
def oversizedMessage (fs : List JsFile) : String :=
  "Some images are too large (max 5MB): " ++
    String.intercalate ", "
      ((fs.filter (fun f => f.size > MAX_IMAGE_SIZE)).map JsFile.name)

/-- Error text of the post-compression size rejection. -/
def stillTooLargeMessage : String :=
  "Images are still too large after compression. Please try smaller images."

/-- Error text of the catch branch of handleImageUpload. -/
def processFailedMessage : String := "Failed to process images. Please try again."

/-- Error text of the submission gate for fewer than 3 images. -/
def tooFewImagesMessage : String := "Please upload at least 3 images"

/-- Fallback error text of handleSubmit for a thrown value that is not an
Error instance. -/
def genericRegisterMessage : String := "An error occurred while registering"

/-- Result of one handleImageUpload call: the post-state, plus whether the
handler executed e.target.value = "" (cleared the file input). -/
structure UploadResult where
  state : FormState
  inputCleared : Bool
deriving DecidableEq

/-- handleImageUpload: returns unchanged on a null file list; rejects the
batch before compression when any file exceeds MAX_IMAGE_SIZE (setting only
the error, clearing the input); otherwise runs all compressions
(setIsProcessing(true) then the finally setIsProcessing(false) leave
isProcessing false in every final state of these paths, and setError(null)
followed by a later setError leaves the later message), re-checks sizes, and
on success appends the compressed batch in order in one setImages call. -/
def handleImageUpload (s : FormState) (files : Option (List JsFile))
    (comp : JsFile → Except Unit String) : UploadResult :=
  match files with
  | none => ⟨s, false⟩
  | some fs =>
    if (fs.filter (fun f => f.size > MAX_IMAGE_SIZE)).length > 0 then
      ⟨{ s with error := some (oversizedMessage fs) }, true⟩
    else
      match promiseAll (fs.map comp) with
      | Except.error _ =>
        ⟨{ s with isProcessing := false, error := some processFailedMessage }, true⟩
      | Except.ok compressedImages =>
        match someTooLarge compressedImages with
        | Except.error _ =>
          ⟨{ s with isProcessing := false, error := some processFailedMessage }, true⟩
        | Except.ok true =>
          ⟨{ s with isProcessing := false, error := some stillTooLargeMessage }, true⟩
        | Except.ok false =>
          ⟨{ s with isProcessing := false, error := none, images := s.images ++ compressedImages },
            false⟩

/-- The form data handleSubmit receives, with the fields the form renders. -/
structure FormDataM where
  businessName : String
  description : String
  address : String
  location : String
  images : List String
deriving DecidableEq

/-- JSON.stringify of the location pair as rendered into the hidden input
(number formatting abstracted by ToString on the rational coordinates). -/
def jsonStringifyLoc (c : Coord) : String :=
  "\x7b\"lat\":" ++ toString c.lat ++ ",\"lng\":" ++ toString c.lng ++ "\x7d"

/-- The form data as the form renders it from the current state: the address
input carries the address state, the hidden location input carries
JSON.stringify(location), the hidden images inputs carry the image list. -/
def buildFormData (s : FormState) (businessName description : String) : FormDataM :=
  ⟨businessName, description, s.address, jsonStringifyLoc s.location, s.images⟩

/-- A thrown JavaScript value, as handleSubmit distinguishes it: an Error
instance with its message, or any other value. -/
inductive JsError where
  | errorObj (message : String)
  | otherValue
deriving DecidableEq

/-- handleSubmit: clear the error, reject locally when fewer than 3 images
are accumulated, otherwise await the external handler once; a thrown value
is caught and becomes the error text.  The second component lists the
invocations of the external handler. -/
def handleSubmit (s : FormState) (fd : FormDataM)
    (handler : FormDataM → Except JsError Unit) : FormState × List FormDataM :=
  if s.images.length < 3 then
    ({ s with error := some tooFewImagesMessage }, [])
  else
    match handler fd with
    | Except.ok _ => ({ s with error := none }, [fd])
    | Except.error (JsError.errorObj m) => ({ s with error := some m }, [fd])
    | Except.error JsError.otherValue =>
        ({ s with error := some genericRegisterMessage }, [fd])

/-- A map click event: latLng may be null. -/
structure MapClickEvent where
  latLng : Option Coord
deriving DecidableEq

/-- handleMapClick: return unchanged when latLng or the geocoder is null;
otherwise set the location from the click at once, then reverse-geocode:
on success with a first result overwrite the address with its
formatted_address, otherwise leave it; a rejected geocode is only logged. -/
def handleMapClick (s : FormState) (hasGeocoder : Bool) (ev : MapClickEvent)
    (reverseGeocode : Coord → Except Unit (List String)) : FormState :=
  match ev.latLng with
  | none => s
  | some c =>
    if hasGeocoder = false then s
    else
      match reverseGeocode c with
      | Except.error _ => { s with location := c }
      | Except.ok results =>
        match results with
        | [] => { s with location := c }
        | addr :: _ => { s with location := c, address := addr }

/-- handleAddressChange: always set the address from the typed text; when the
geocoder exists and the text is nonempty, forward-geocode it, and on success
with a first result that has a geometry location overwrite the location; a
rejected geocode is only logged.  Each result carries its optional
geometry.location. -/
def handleAddressChange (s : FormState) (hasGeocoder : Bool) (newAddress : String)
    (forwardGeocode : String → Except Unit (List (Option Coord))) : FormState :=
  if hasGeocoder = false ∨ newAddress = "" then { s with address := newAddress }
  else
    match forwardGeocode newAddress with
    | Except.error _ => { s with address := newAddress }
    | Except.ok results =>
      match results with
      | some c :: _ => { s with address := newAddress, location := c }
      | _ => { s with address := newAddress }

/-- Promise.all over a batch in which every compression resolves returns all
data URLs in the original order. -/
theorem promiseAll_map_ok (comp : JsFile → String) (fs : List JsFile) :
    promiseAll (fs.map (fun f => Except.ok (comp f))) = Except.ok (fs.map comp) := by
  induction fs with
  | nil => rfl
  | cons f fs ih => simp [promiseAll, ih]

/-- Promise.all over a batch containing a rejected compression rejects. -/
theorem promiseAll_error_of_mem (rs : List (Except Unit String))
    (h : ∃ r ∈ rs, r = Except.error ()) : promiseAll rs = Except.error () := by
  induction rs with
  | nil =>
    obtain ⟨r, hr, _⟩ := h
    exact absurd hr (List.not_mem_nil r)
  | cons r rs ih =>
    obtain ⟨x, hx, hxe⟩ := h
    rcases List.mem_cons.1 hx with rfl | hx2
    · rw [hxe]
      rfl
    · cases r with
      | error e => cases e; rfl
      | ok v => simp [promiseAll, ih ⟨x, hx2, hxe⟩]

/-- The size re-check passes when every result is a data URL whose payload is
within the post-compression ceiling. -/
theorem someTooLarge_ok_false (urls : List String)
    (h : ∀ u ∈ urls, effSizeOkB u = true) :
    someTooLarge urls = Except.ok false := by
  induction urls with
  | nil => rfl
  | cons u us ih =>
    have hu := h u (List.mem_cons_self u us)
    cases hpl : base64PayloadLen u with
    | none => simp [effSizeOkB, hpl] at hu
    | some n =>
      simp only [effSizeOkB, hpl, decide_eq_true_eq] at hu
      simp only [someTooLarge, hpl]
      rw [if_neg (by omega)]
      exact ih (fun v hv => h v (List.mem_cons_of_mem u hv))

/-- When every result is a data URL with a comma, the size re-check computes
exactly whether some result is oversized. -/
theorem someTooLarge_eq_any (urls : List String)
    (h : ∀ u ∈ urls, (base64PayloadLen u).isSome) :
    someTooLarge urls = Except.ok (urls.any tooLargeB) := by
  induction urls with
  | nil => rfl
  | cons u us ih =>
    have hu := h u (List.mem_cons_self u us)
    cases hpl : base64PayloadLen u with
    | none => rw [hpl] at hu; simp at hu
    | some n =>
      simp only [someTooLarge, List.any_cons, tooLargeB, hpl]
      by_cases hc : n * 3 > MAX_UPLOAD_SIZE * 4
      · simp [hc]
      · simp [hc, ih (fun v hv => h v (List.mem_cons_of_mem u hv))]

/-- A comma-free segment is returned whole by untilComma. -/
theorem untilComma_eq_self (cs : List Char) (h : ¬ (',' ∈ cs)) :
    untilComma cs = cs := by
  induction cs with
  | nil => rfl
  | cons c cs ih =>
    have hc : ¬ (c = ',') := by
      intro he
      apply h
      rw [he]
      exact List.mem_cons_self _ _
    simp only [untilComma, if_neg hc]
    rw [ih (fun hm => h (List.mem_cons_of_mem c hm))]

/-- A batch with no oversized raw file filters to the empty list. -/
theorem filter_oversized_nil (fs : List JsFile)
    (hsize : ∀ f ∈ fs, f.size ≤ MAX_IMAGE_SIZE) :
    (fs.filter (fun f => f.size > MAX_IMAGE_SIZE)) = [] :=
  List.filter_eq_nil_iff.2 (fun f hf => by simpa using hsize f hf)

/-- handleImageUpload never writes location or address, on any path. -/
theorem handleImageUpload_frame (s : FormState) (files : Option (List JsFile))
    (comp : JsFile → Except Unit String) :
    (handleImageUpload s files comp).state.location = s.location ∧
    (handleImageUpload s files comp).state.address = s.address := by
  simp only [handleImageUpload]
  repeat' split
  all_goals exact ⟨rfl, rfl⟩

/-- handleMapClick never writes images, error or isProcessing, on any path. -/
theorem handleMapClick_frame (s : FormState) (g : Bool) (ev : MapClickEvent)
    (rgeo : Coord → Except Unit (List String)) :
    (handleMapClick s g ev rgeo).images = s.images ∧
    (handleMapClick s g ev rgeo).error = s.error ∧
    (handleMapClick s g ev rgeo).isProcessing = s.isProcessing := by
  simp only [handleMapClick]
  repeat' split
  all_goals exact ⟨rfl, rfl, rfl⟩

/-- handleAddressChange never writes images, error or isProcessing, on any
path. -/
theorem handleAddressChange_frame (s : FormState) (g : Bool) (newAddress : String)
    (fgeo : String → Except Unit (List (Option Coord))) :
    (handleAddressChange s g newAddress fgeo).images = s.images ∧
    (handleAddressChange s g newAddress fgeo).error = s.error ∧
    (handleAddressChange s g newAddress fgeo).isProcessing = s.isProcessing := by
  simp only [handleAddressChange]
  repeat' split
  all_goals exact ⟨rfl, rfl, rfl⟩

/-- Round-half-up of a / b stays at or below 1024 when a is at most b * 1024. -/
theorem roundDiv_le_1024 (a b : Nat) (hb : 0 < b) (h : a ≤ b * 1024) :
    roundDiv a b ≤ 1024 := by
  unfold roundDiv
  exact Nat.le_of_lt_succ ((Nat.div_lt_iff_lt_mul (by omega)).2 (by omega))

/-- C4: the dimension computation of compressImage returns the input
dimensions whenever the longer side is at most 1024 (no upscaling), and
otherwise maps the longer side to exactly 1024 and the other side to
Math.round(other * 1024 / longer); in that case both output sides are at
most 1024. -/
theorem C4_compress_dimensions (w h : Nat) :
    (max w h ≤ 1024 → compressDimensions w h = (w, h)) ∧
    (1024 < max w h →
      (h < w → compressDimensions w h = (1024, roundDiv (h * 1024) w)) ∧
      (w ≤ h → compressDimensions w h = (roundDiv (w * 1024) h, 1024)) ∧
      (compressDimensions w h).1 ≤ 1024 ∧ (compressDimensions w h).2 ≤ 1024) := by
  constructor
  · intro hle
    have hw : w ≤ 1024 := le_trans (le_max_left w h) hle
    have hh : h ≤ 1024 := le_trans (le_max_right w h) hle
    unfold compressDimensions
    by_cases hwh : w > h
    · rw [if_pos hwh, if_neg (by omega)]
    · rw [if_neg hwh, if_neg (by omega)]
  · intro hgt
    by_cases hwh : h < w
    · have hw1024 : 1024 < w := by
        rcases lt_max_iff.1 hgt with h1 | h1 <;> omega
      have heq : compressDimensions w h = (1024, roundDiv (h * 1024) w) := by
        unfold compressDimensions
        rw [if_pos hwh, if_pos hw1024]
      refine ⟨fun _ => heq, fun hle => absurd hle (by omega), ?_, ?_⟩
      · rw [heq]
      · rw [heq]
        exact roundDiv_le_1024 (h * 1024) w (by omega) (by omega)
    · have hwle : w ≤ h := by omega
      have hh1024 : 1024 < h := by
        rcases lt_max_iff.1 hgt with h1 | h1 <;> omega
      have heq : compressDimensions w h = (roundDiv (w * 1024) h, 1024) := by
        unfold compressDimensions
        rw [if_neg (by omega), if_pos hh1024]
      refine ⟨fun hlt => absurd hlt (by omega), fun _ => heq, ?_, ?_⟩
      · rw [heq]
        exact roundDiv_le_1024 (w * 1024) h (by omega) (by omega)
      · rw [heq]

/-- C4 witness: a small input is returned unchanged, and a 2048 x 1000 input
is mapped to 1024 on the longer side with the other side rounded. -/
theorem C4_compress_dimensions_witness :
    compressDimensions 800 600 = (800, 600) ∧
    compressDimensions 2048 1000 = (1024, roundDiv (1000 * 1024) 2048) :=
  ⟨(C4_compress_dimensions 800 600).1 (by decide),
    ((C4_compress_dimensions 2048 1000).2 (by decide)).1 (by decide)⟩

/-- C5: handleSubmit with fewer than 3 accumulated images sets the
insufficient-count error and never invokes the external handler; with 3 or
more it invokes the handler exactly once, on form data whose location field
is the JSON encoding of the current location. -/
theorem C5_submit_gate (s : FormState) (bn desc : String)
    (handler : FormDataM → Except JsError Unit) :
    (s.images.length < 3 →
      handleSubmit s (buildFormData s bn desc) handler =
        ({ s with error := some tooFewImagesMessage }, [])) ∧
    (3 ≤ s.images.length →
      (handleSubmit s (buildFormData s bn desc) handler).2 = [buildFormData s bn desc] ∧
      (buildFormData s bn desc).location = jsonStringifyLoc s.location) := by
  constructor
  · intro hlt
    simp only [handleSubmit, if_pos hlt]
  · intro hge
    refine ⟨?_, rfl⟩
    simp only [handleSubmit, if_neg (by omega : ¬ s.images.length < 3)]
    cases hh : handler (buildFormData s bn desc) with
    | ok u => rfl
    | error e => cases e <;> rfl

/-- C5 witness: with 1 image the handler is not called and the error is set;
with 3 images the handler receives the form data exactly once. -/
theorem C5_submit_gate_witness :
    handleSubmit ⟨⟨18, 98⟩, "a", ["x"], none, false⟩
        (buildFormData ⟨⟨18, 98⟩, "a", ["x"], none, false⟩ "b" "d")
        (fun _ => Except.ok ()) =
      (⟨⟨18, 98⟩, "a", ["x"], some tooFewImagesMessage, false⟩, []) ∧
    (handleSubmit ⟨⟨18, 98⟩, "a", ["x", "y", "z"], none, false⟩
        (buildFormData ⟨⟨18, 98⟩, "a", ["x", "y", "z"], none, false⟩ "b" "d")
        (fun _ => Except.ok ())).2 =
      [buildFormData ⟨⟨18, 98⟩, "a", ["x", "y", "z"], none, false⟩ "b" "d"] := by
  constructor
  · exact (C5_submit_gate ⟨⟨18, 98⟩, "a", ["x"], none, false⟩ "b" "d"
      (fun _ => Except.ok ())).1 (by decide)
  · exact ((C5_submit_gate ⟨⟨18, 98⟩, "a", ["x", "y", "z"], none, false⟩ "b" "d"
      (fun _ => Except.ok ())).2 (by decide)).1

/-- C9: when the external handler throws, handleSubmit catches the value and
sets the error to the message of an Error instance, or to the generic text
for any other thrown value; the image list is unchanged in both cases. -/
theorem C9_submit_handler_throw (s : FormState) (fd : FormDataM) (m : String)
    (hlen : 3 ≤ s.images.length) :
    handleSubmit s fd (fun _ => Except.error (JsError.errorObj m)) =
      ({ s with error := some m }, [fd]) ∧
    handleSubmit s fd (fun _ => Except.error JsError.otherValue) =
      ({ s with error := some genericRegisterMessage }, [fd]) := by
  constructor <;> simp only [handleSubmit, if_neg (by omega : ¬ s.images.length < 3)]

/-- C9 witness: a thrown Error with message "boom" surfaces as that error
text with the image list intact. -/
theorem C9_submit_handler_throw_witness :
    handleSubmit ⟨⟨18, 98⟩, "a", ["x", "y", "z"], none, false⟩
        ⟨"b", "d", "a", "l", ["x", "y", "z"]⟩
        (fun _ => Except.error (JsError.errorObj "boom")) =
      (⟨⟨18, 98⟩, "a", ["x", "y", "z"], some "boom", false⟩,
        [⟨"b", "d", "a", "l", ["x", "y", "z"]⟩]) :=
  (C9_submit_handler_throw ⟨⟨18, 98⟩, "a", ["x", "y", "z"], none, false⟩
    ⟨"b", "d", "a", "l", ["x", "y", "z"]⟩ "boom" (by decide)).1

/-- C8: a map click with coordinates, once the geocoder exists, sets the
location from the click on every geocode outcome; the address is overwritten
exactly when the reverse geocode resolves with a first result, and a
rejected geocode leaves every other field unchanged. -/
theorem C8_map_click (s : FormState) (c : Coord)
    (reverseGeocode : Coord → Except Unit (List String)) :
    (handleMapClick s true ⟨some c⟩ reverseGeocode).location = c ∧
    (reverseGeocode c = Except.error () →
      handleMapClick s true ⟨some c⟩ reverseGeocode = { s with location := c }) ∧
    (reverseGeocode c = Except.ok [] →
      handleMapClick s true ⟨some c⟩ reverseGeocode = { s with location := c }) ∧
    (∀ addr rest, reverseGeocode c = Except.ok (addr :: rest) →
      handleMapClick s true ⟨some c⟩ reverseGeocode =
        { s with location := c, address := addr }) := by
  refine ⟨?_, ?_, ?_, ?_⟩
  · simp only [handleMapClick]
    cases hr : reverseGeocode c with
    | error e => simp
    | ok results => cases results <;> simp
  · intro hr
    simp [handleMapClick, hr]
  · intro hr
    simp [handleMapClick, hr]
  · intro addr rest hr
    simp [handleMapClick, hr]

/-- C8 witness: a click at concrete coordinates with a resolving geocode sets
both location and address; with a rejected geocode only the location. -/
theorem C8_map_click_witness :
    handleMapClick ⟨⟨18, 98⟩, "old", [], none, false⟩ true ⟨some ⟨19, 99⟩⟩
        (fun _ => Except.ok ["addr1"]) = ⟨⟨19, 99⟩, "addr1", [], none, false⟩ ∧
    handleMapClick ⟨⟨18, 98⟩, "old", [], none, false⟩ true ⟨some ⟨19, 99⟩⟩
        (fun _ => Except.error ()) = ⟨⟨19, 99⟩, "old", [], none, false⟩ :=
  ⟨(C8_map_click ⟨⟨18, 98⟩, "old", [], none, false⟩ ⟨19, 99⟩
      (fun _ => Except.ok ["addr1"])).2.2.2 "addr1" [] rfl,
    (C8_map_click ⟨⟨18, 98⟩, "old", [], none, false⟩ ⟨19, 99⟩
      (fun _ => Except.error ())).2.1 rfl⟩

/-- C10: the mutation footprints are disjoint: handleImageUpload never
writes location or address, and handleMapClick and handleAddressChange never
write the image list, the error or the processing flag, on any path. -/
theorem C10_disjoint_footprints (s : FormState) (files : Option (List JsFile))
    (comp : JsFile → Except Unit String) (g g2 : Bool) (ev : MapClickEvent)
    (rgeo : Coord → Except Unit (List String)) (newAddress : String)
    (fgeo : String → Except Unit (List (Option Coord))) :
    ((handleImageUpload s files comp).state.location = s.location ∧
     (handleImageUpload s files comp).state.address = s.address) ∧
    ((handleMapClick s g ev rgeo).images = s.images ∧
     (handleMapClick s g ev rgeo).error = s.error ∧
     (handleMapClick s g ev rgeo).isProcessing = s.isProcessing) ∧
    ((handleAddressChange s g2 newAddress fgeo).images = s.images ∧
     (handleAddressChange s g2 newAddress fgeo).error = s.error ∧
     (handleAddressChange s g2 newAddress fgeo).isProcessing = s.isProcessing) :=
  ⟨handleImageUpload_frame s files comp, handleMapClick_frame s g ev rgeo,
    handleAddressChange_frame s g2 newAddress fgeo⟩

/-- C6 counterexample: an ingest call with an empty (not null) file selection
is not a no-op on the error field: a previously displayed error is cleared
to none by the setError(null) that precedes compression. -/
theorem C6_counterexample :
    (handleImageUpload ⟨⟨18, 98⟩, "", [], some "old error", false⟩ (some [])
        (fun _ => Except.error ())).state.error = none ∧
    FormState.error ⟨⟨18, 98⟩, "", [], some "old error", false⟩ = some "old error" :=
  ⟨rfl, rfl⟩

/-- C6 amended: an ingest call with an empty file selection appends nothing
to the image list, leaves location and address unchanged and finishes with
isProcessing false, but clears the error to none; an ingest call with a null
file list is a complete no-op. -/
theorem C6_amended_empty_selection (s : FormState) (comp : JsFile → Except Unit String) :
    handleImageUpload s (some []) comp =
      ⟨{ s with isProcessing := false, error := none }, false⟩ ∧
    handleImageUpload s none comp = ⟨s, false⟩ := by
  constructor
  · simp [handleImageUpload, promiseAll, someTooLarge]
  · rfl

/-- C1: a batch whose files are all within the raw ceiling and all compress
to data URLs within the effective decoded-size ceiling is appended whole:
handleImageUpload ends with the previous image list followed by exactly one
encoded entry per file in the original selection order, set in the single
setImages call, with the error cleared, isProcessing reset and the input not
cleared. -/
theorem C1_ingest_appends_in_order (s : FormState) (fs : List JsFile)
    (comp : JsFile → String)
    (hsize : ∀ f ∈ fs, f.size ≤ MAX_IMAGE_SIZE)
    (hok : ∀ f ∈ fs, effSizeOkB (comp f) = true) :
    handleImageUpload s (some fs) (fun f => Except.ok (comp f)) =
      ⟨{ s with isProcessing := false, error := none, images := s.images ++ fs.map comp },
        false⟩ := by
  have hfil := filter_oversized_nil fs hsize
  have hall := promiseAll_map_ok comp fs
  have hsome : someTooLarge (fs.map comp) = Except.ok false :=
    someTooLarge_ok_false (fs.map comp) (fun u hu => by
      obtain ⟨f, hf, rfl⟩ := List.mem_map.1 hu
      exact hok f hf)
  simp only [handleImageUpload, hfil, List.length_nil, gt_iff_lt, lt_self_iff_false,
    if_false, hall, hsome]

/-- C1 witness: two small files compressing to the same small data URL are
both appended after the existing entry, in order. -/
theorem C1_ingest_appends_in_order_witness :
    handleImageUpload ⟨⟨18, 98⟩, "addr", ["keep"], none, false⟩
        (some [⟨"a.jpg", 1000⟩, ⟨"b.jpg", 2000⟩]) (fun _ => Except.ok "d,x") =
      ⟨⟨⟨18, 98⟩, "addr", ["keep", "d,x", "d,x"], none, false⟩, false⟩ := by
  have h := C1_ingest_appends_in_order ⟨⟨18, 98⟩, "addr", ["keep"], none, false⟩
    [⟨"a.jpg", 1000⟩, ⟨"b.jpg", 2000⟩] (fun _ => "d,x") (by decide) (by decide)
  simpa using h

/-- C2: a batch containing a file over the raw 5 MiB ceiling is rejected
before any compression: the error is set to the message naming the oversized
files, the file input is cleared, and the image list, processing flag,
location and address are all left unchanged; the outcome does not depend on
the compression function. -/
theorem C2_ingest_rejects_oversized (s : FormState) (fs : List JsFile)
    (comp comp2 : JsFile → Except Unit String)
    (h : ∃ f ∈ fs, MAX_IMAGE_SIZE < f.size) :
    handleImageUpload s (some fs) comp =
      ⟨{ s with error := some (oversizedMessage fs) }, true⟩ ∧
    handleImageUpload s (some fs) comp = handleImageUpload s (some fs) comp2 := by
  obtain ⟨f, hf, hsz⟩ := h
  have hmem : f ∈ fs.filter (fun f => f.size > MAX_IMAGE_SIZE) :=
    List.mem_filter.2 ⟨hf, by simpa using hsz⟩
  have hlen : (fs.filter (fun f => f.size > MAX_IMAGE_SIZE)).length > 0 :=
    List.length_pos.2 (List.ne_nil_of_mem hmem)
  constructor
  · simp only [handleImageUpload, if_pos hlen]
  · simp only [handleImageUpload, if_pos hlen]

/-- C2 witness: a single 6 MiB file is rejected with the naming message, the
input cleared and the rest of the state untouched. -/
theorem C2_ingest_rejects_oversized_witness :
    handleImageUpload ⟨⟨18, 98⟩, "a", ["keep"], none, false⟩
        (some [⟨"big.jpg", 6291456⟩]) (fun _ => Except.error ()) =
      ⟨⟨⟨18, 98⟩, "a", ["keep"], some (oversizedMessage [⟨"big.jpg", 6291456⟩]), false⟩,
        true⟩ :=
  (C2_ingest_rejects_oversized ⟨⟨18, 98⟩, "a", ["keep"], none, false⟩
    [⟨"big.jpg", 6291456⟩] (fun _ => Except.error ()) (fun _ => Except.error ())
    ⟨⟨"big.jpg", 6291456⟩, List.mem_singleton.2 rfl, by decide⟩).1

/-- C3: when every raw file passes the 5 MiB check, every compression
resolves, every result is a data URL, and some result has effective decoded
size (payload length times 0.75) over 1 MiB, the whole batch is rejected:
the error is set, the input cleared, and nothing at all is appended. -/
theorem C3_post_compression_reject (s : FormState) (fs : List JsFile)
    (comp : JsFile → Except Unit String) (urls : List String)
    (hsize : ∀ f ∈ fs, f.size ≤ MAX_IMAGE_SIZE)
    (hall : promiseAll (fs.map comp) = Except.ok urls)
    (hpayload : ∀ u ∈ urls, (base64PayloadLen u).isSome)
    (hex : ∃ u ∈ urls, tooLargeB u = true) :
    handleImageUpload s (some fs) comp =
      ⟨{ s with isProcessing := false, error := some stillTooLargeMessage }, true⟩ := by
  have hfil := filter_oversized_nil fs hsize
  have hsome : someTooLarge urls = Except.ok true := by
    rw [someTooLarge_eq_any urls hpayload]
    obtain ⟨u, hu, htl⟩ := hex
    have : urls.any tooLargeB = true := List.any_eq_true.2 ⟨u, hu, htl⟩
    rw [this]
  simp only [handleImageUpload, hfil, List.length_nil, gt_iff_lt, lt_self_iff_false,
    if_false, hall, hsome]

/-- C3 witness: one file compressing to a data URL whose payload has
1398102 characters (effective size 1048576.5 bytes, just over 1 MiB) makes
the batch rejected with nothing appended. -/
theorem C3_post_compression_reject_witness :
    handleImageUpload ⟨⟨18, 98⟩, "a", ["keep"], none, false⟩ (some [⟨"a.jpg", 10⟩])
        (fun _ => Except.ok (String.mk ('d' :: ',' :: List.replicate 1398102 'A'))) =
      ⟨⟨⟨18, 98⟩, "a", ["keep"], some stillTooLargeMessage, false⟩, true⟩ := by
  have hpl : base64PayloadLen (String.mk ('d' :: ',' :: List.replicate 1398102 'A')) =
      some 1398102 := by
    unfold base64PayloadLen
    have ht : (String.mk ('d' :: ',' :: List.replicate 1398102 'A')).toList =
        'd' :: ',' :: List.replicate 1398102 'A' := rfl
    rw [ht]
    have h1 : afterFirstComma ('d' :: ',' :: List.replicate 1398102 'A') =
        afterFirstComma (',' :: List.replicate 1398102 'A') := by
      rw [afterFirstComma]
      exact if_neg (by decide)
    have h2 : afterFirstComma (',' :: List.replicate 1398102 'A') =
        some (untilComma (List.replicate 1398102 'A')) := by
      rw [afterFirstComma]
      exact if_pos rfl
    have h3 : untilComma (List.replicate 1398102 'A') = List.replicate 1398102 'A' :=
      untilComma_eq_self _ (fun hm => absurd (List.mem_replicate.1 hm).2 (by decide))
    rw [h1, h2, h3, Option.map_some', List.length_replicate]
  have htl : tooLargeB (String.mk ('d' :: ',' :: List.replicate 1398102 'A')) = true := by
    simp only [tooLargeB, hpl]
    decide
  exact C3_post_compression_reject ⟨⟨18, 98⟩, "a", ["keep"], none, false⟩
    [⟨"a.jpg", 10⟩]
    (fun _ => Except.ok (String.mk ('d' :: ',' :: List.replicate 1398102 'A')))
    [String.mk ('d' :: ',' :: List.replicate 1398102 'A')]
    (by decide) rfl
    (fun u hu => by rw [List.mem_singleton.1 hu, hpl]; rfl)
    ⟨String.mk ('d' :: ',' :: List.replicate 1398102 'A'), List.mem_singleton.2 rfl, htl⟩

/-- C7: past the raw size check, every path of handleImageUpload finishes
with isProcessing false; and when some compression in the batch rejects, the
whole batch fails: generic error set, input cleared, nothing appended,
isProcessing reset to false. -/
theorem C7_processing_reset (s : FormState) (fs : List JsFile)
    (comp : JsFile → Except Unit String)
    (hsize : ∀ f ∈ fs, f.size ≤ MAX_IMAGE_SIZE) :
    (handleImageUpload s (some fs) comp).state.isProcessing = false ∧
    ((∃ f ∈ fs, comp f = Except.error ()) →
      handleImageUpload s (some fs) comp =
        ⟨{ s with isProcessing := false, error := some processFailedMessage }, true⟩) := by
  have hfil := filter_oversized_nil fs hsize
  constructor
  · simp only [handleImageUpload, hfil, List.length_nil, gt_iff_lt, lt_self_iff_false,
      if_false]
    repeat' split
    all_goals rfl
  · intro hex
    have herr : promiseAll (fs.map comp) = Except.error () := by
      apply promiseAll_error_of_mem
      obtain ⟨f, hf, hcf⟩ := hex
      exact ⟨comp f, List.mem_map_of_mem comp hf, hcf⟩
    simp only [handleImageUpload, hfil, List.length_nil, gt_iff_lt, lt_self_iff_false,
      if_false, herr]

/-- C7 witness: a batch whose single compression rejects ends with the
generic error, a cleared input, no appended image and isProcessing false. -/
theorem C7_processing_reset_witness :
    (handleImageUpload ⟨⟨18, 98⟩, "a", ["keep"], none, false⟩ (some [⟨"a.jpg", 10⟩])
        (fun _ => Except.error ())).state.isProcessing = false ∧
    handleImageUpload ⟨⟨18, 98⟩, "a", ["keep"], none, false⟩ (some [⟨"a.jpg", 10⟩])
        (fun _ => Except.error ()) =
      ⟨⟨⟨18, 98⟩, "a", ["keep"], some processFailedMessage, false⟩, true⟩ := by
  have h := C7_processing_reset ⟨⟨18, 98⟩, "a", ["keep"], none, false⟩ [⟨"a.jpg", 10⟩]
    (fun _ => Except.error ()) (by decide)
  exact ⟨h.1, h.2 ⟨⟨"a.jpg", 10⟩, List.mem_singleton.2 rfl, rfl⟩⟩

end NewMerchantForm
